import Mathlib

/-!
Shallow embedding of the Confidential-Information-Redactor add-in:
the redaction workflow (`formatAndRedactDocument` and its helpers in
`word-interaction.ts`) and the `POST /api/redact` handler (`route.ts`).
Documents are modelled explicitly (tracking mode, sections with header
paragraphs, body text); host mutations are recorded in an operation log.
-/

namespace Redactor

/-! ### Character/string helpers (JS and Word search semantics) -/

/-- Case folding used by Word search with matchCase false (ASCII model). -/
def lc (c : Char) : Char := c.toLower

/-- JS whitespace as trimmed by String.prototype.trim. -/
def isWsChar (c : Char) : Bool := c = ' ' || c = '\n' || c = '\t' || c = '\r'

/-- JS String.prototype.trim: drop whitespace at both ends. -/
def trimChars (s : List Char) : List Char :=
  ((s.dropWhile isWsChar).reverse.dropWhile isWsChar).reverse

/-- A blank (empty or whitespace-only) string: text.trim() is falsy. -/
def isBlank (s : String) : Bool := trimChars s.data = []

/-- Case-insensitive test that pattern is a prefix of text. -/
def ciPrefix : List Char → List Char → Bool
  | [], _ => true
  | _ :: _, [] => false
  | p :: ps, t :: ts => (lc p == lc t) && ciPrefix ps ts

/-- Fuel-driven count of left-to-right, non-overlapping, case-insensitive
occurrences of pattern in text (semantics of body.search with matchCase
false); fuel at least text length. -/
def ciCountAux (pat : List Char) : Nat → List Char → Nat
  | _, [] => 0
  | 0, _ :: _ => 0
  | fuel + 1, c :: rest =>
    if pat ≠ [] ∧ ciPrefix pat (c :: rest) then
      1 + ciCountAux pat fuel (rest.drop (pat.length - 1))
    else
      ciCountAux pat fuel rest

/-- Number of case-insensitive occurrences of a pattern in a text. -/
def ciCount (pat text : List Char) : Nat := ciCountAux pat text.length text

/-- Count of (possibly overlapping) case-sensitive occurrences of a pattern;
used to count the confidentiality marker, which cannot overlap itself. -/
def occursCount (pat : List Char) : List Char → Nat
  | [] => 0
  | c :: rest => (if pat.isPrefixOf (c :: rest) then 1 else 0) + occursCount pat rest

/-- JS String.prototype.includes / Word search hit test: substring containment. -/
def jsIncludes (needle hay : List Char) : Bool := decide (needle <:+: hay)

/-! ### Body fragments produced by the redaction loop -/

/-- A piece of the document body after redaction: either an untouched
character, or an inserted range with its text and font styling. -/
inductive Frag
  | plain (c : Char)
  | tok (text highlight color : String) (bold : Bool)
deriving DecidableEq, Repr

/-- The styled replacement the loop inserts for every found range:
insertText "[REDACTED]" with black highlight, white font, bold false. -/
def redactToken : Frag := Frag.tok "[REDACTED]" "#000000" "#FFFFFF" false

/-- Fuel-driven splitting of a body text at each case-insensitive occurrence
of the span, replacing every found range by the styled redaction token
(the inner for-loop over searchResults.items). -/
def splitRedactAux (pat : List Char) : Nat → List Char → List Frag
  | _, [] => []
  | 0, _ :: _ => []
  | fuel + 1, c :: rest =>
    if pat ≠ [] ∧ ciPrefix pat (c :: rest) then
      redactToken :: splitRedactAux pat fuel (rest.drop (pat.length - 1))
    else
      Frag.plain c :: splitRedactAux pat fuel rest

/-- Redaction of one span over a body text. -/
def splitRedact (pat text : List Char) : List Frag := splitRedactAux pat text.length text

/-- Text rendering of a fragment. -/
def Frag.render : Frag → List Char
  | .plain c => [c]
  | .tok t _ _ _ => t.data

/-- Concatenated text of a fragment list (the body text seen by later spans). -/
def renderFrags (fs : List Frag) : List Char := (fs.map Frag.render).flatten

/-! ### Document model and the workflow (word-interaction draft in route.ts) -/

/-- Word change-tracking mode (the values the code uses). -/
inductive TrackMode
  | off
  | trackAll
deriving DecidableEq, Repr

/-- A header paragraph with the font properties the code sets. -/
structure Para where
  text : String
  bold : Bool
  color : String
  size : Nat
  centered : Bool
deriving DecidableEq, Repr

/-- A document section: we model its primary header's paragraphs. -/
structure Sec where
  header : List Para
deriving DecidableEq, Repr

/-- The document: tracking mode, sections, body text. -/
structure Doc where
  mode : TrackMode
  sections : List Sec
  body : String
deriving DecidableEq, Repr

/-- Mutating host calls issued by the workflow, in order. -/
inductive Op
  | setMode (m : TrackMode)
  | insertHeaderPara (text : String)
  | clearHyperlink
  | replaceWithRedacted
deriving DecidableEq, Repr

/-- Text of a header range: its paragraphs joined by paragraph breaks. -/
def headerChars : List Para → List Char
  | [] => []
  | [p] => p.text.data
  | p :: q :: rest => p.text.data ++ '\n' :: headerChars (q :: rest)

/-- The literal confidentiality marker. -/
def marker : String := "CONFIDENTIAL DOCUMENT"

/-- The paragraph inserted at the header start: bold, color #D83B01,
size 14, centered. -/
def confidentialPara : Para :=
  { text := marker, bold := true, color := "#D83B01", size := 14, centered := true }

/-- `enableTrackChanges`: when the WordApi 1.5 requirement is supported,
read the mode and set trackAll only if it differs (else warn and do
nothing). Returns the document and the mutating calls issued. -/
def enableTrackChanges (supported : Bool) (d : Doc) : Doc × List Op :=
  if supported then
    if d.mode ≠ TrackMode.trackAll then
      ({ d with mode := TrackMode.trackAll }, [Op.setMode TrackMode.trackAll])
    else (d, [])
  else (d, [])

/-- `addConfidentialHeader`: on the first section's primary header, insert
the marker paragraph at Start unless the header already contains the
marker. -/
def addConfidentialHeader (d : Doc) : Doc × List Op :=
  match d.sections with
  | [] => (d, [])
  | s0 :: rest =>
    if jsIncludes marker.data (headerChars s0.header) then (d, [])
    else
      ({ d with sections := Sec.mk (confidentialPara :: s0.header) :: rest },
       [Op.insertHeaderPara marker])

/-- Outcome of the fetch to /api/redact as the client sees it:
a 2xx body whose pii field may be absent, or a non-2xx whose parsed
error field may be absent (unparseable body or no error key). -/
inductive FetchResult
  | ok (pii : Option (List String))
  | httpError (errorField : Option String)

/-- Mutating calls for one found occurrence: tracking off, strip the
hyperlink, tracking back to trackAll, tracked replacement. -/
def occOps : List Op :=
  [Op.setMode TrackMode.off, Op.clearHyperlink,
   Op.setMode TrackMode.trackAll, Op.replaceWithRedacted]

/-- Mutating calls for the k occurrences of one span. -/
def occurrenceOps (k : Nat) : List Op := (List.replicate k occOps).flatten

/-- State threaded through the redaction loop. -/
structure LoopState where
  doc : Doc
  msgs : List String
  ops : List Op
  count : Nat
deriving Repr

/-- The per-span loop: skip blank spans; otherwise bump the counter,
report progress, search the body case-insensitively and replace every
occurrence with the styled token (per occurrence: tracking off, unlink,
tracking on, tracked replacement). -/
def redactLoop (total : Nat) : List String → LoopState → LoopState
  | [], st => st
  | item :: rest, st =>
    if isBlank item then redactLoop total rest st
    else
      let k := ciCount item.data st.doc.body.data
      let newMode := if k = 0 then st.doc.mode else TrackMode.trackAll
      let doc' : Doc :=
        { st.doc with
          body := String.mk (renderFrags (splitRedact item.data st.doc.body.data)),
          mode := newMode }
      redactLoop total rest
        { doc := doc',
          msgs := st.msgs ++
            ["Protecting data (" ++ toString (st.count + 1) ++ "/" ++
             toString total ++ ")..."],
          ops := st.ops ++ occurrenceOps k,
          count := st.count + 1 }

/-- Result of a workflow run: final document, progress messages in order,
mutating host calls in order, and the thrown error message if any. -/
structure RunResult where
  doc : Doc
  msgs : List String
  ops : List Op
  err : Option String
deriving Repr

/-- `formatAndRedactDocument`: enable tracking and insert the header, read
the body, stop with an informational status when the trimmed body is
empty, call the classifier, throw its error (or the generic fallback) on
a non-2xx, default a missing pii field to the empty list, stop with a
no-sensitive-data status when the list is empty, else run the redaction
loop and report completion. -/
def formatAndRedactDocument (supported : Bool) (resp : FetchResult) (d : Doc) :
    RunResult :=
  let m1 := ["Setting up document tracking..."]
  let p1 := enableTrackChanges supported d
  let p2 := addConfidentialHeader p1.1
  let d2 := p2.1
  let prepOps := p1.2 ++ p2.2
  let m2 := m1 ++ ["Reading document content..."]
  if isBlank d2.body then
    { doc := d2, msgs := m2 ++ ["The document appears to be empty."],
      ops := prepOps, err := none }
  else
    let m3 := m2 ++ ["AI is identifying sensitive data..."]
    match resp with
    | FetchResult.httpError errorField =>
      let msg := match errorField with
        | some s => if s = "" then "AI Service Unavailable" else s
        | none => "AI Service Unavailable"
      { doc := d2, msgs := m3, ops := prepOps, err := some msg }
    | FetchResult.ok piiOpt =>
      let pii := piiOpt.getD []
      if pii = [] then
        { doc := d2, msgs := m3 ++ ["No sensitive data found. You're clear!"],
          ops := prepOps, err := none }
      else
        let st := redactLoop pii.length pii ⟨d2, m3, prepOps, 0⟩
        { doc := st.doc,
          msgs := st.msgs ++
            ["Mission accomplished! " ++ toString pii.length ++ " items secured.",
             "Done!"],
          ops := st.ops, err := none }

/-! ### rejectAllChanges -/

/-- A run of document text under track changes: the text before the
tracked change and the text currently shown. -/
structure TRun where
  original : String
  current : String
deriving DecidableEq, Repr

/-- Body and first-section primary-header runs. -/
structure RDoc where
  body : List TRun
  header : List TRun
deriving DecidableEq, Repr

/-- Rejecting a tracked change restores the pre-change text. -/
def rejectRun (r : TRun) : TRun := { r with current := r.original }

/-- The capability-error message thrown when WordApi 1.6 is unsupported. -/
def rejectUnsupportedMsg : String :=
  "Your version of Word doesn't support automatic rejection. " ++
  "You can still reject changes manually from the 'Review' tab."

/-- `rejectAllChanges`: when WordApi 1.6 is supported, reject every tracked
change in the body and in the first section's primary header; otherwise
throw the capability error and leave the document untouched. Returns the
document and the thrown message if any. -/
def rejectAllChanges (supported : Bool) (d : RDoc) : RDoc × Option String :=
  if supported then
    ({ body := d.body.map rejectRun, header := d.header.map rejectRun }, none)
  else
    (d, some rejectUnsupportedMsg)

/-! ### JSON values and parsing (JSON.parse as route.ts uses it) -/

/-- A parsed JSON value; numbers are kept as their literal text. -/
inductive Json
  | null
  | bool (b : Bool)
  | num (lit : String)
  | str (s : String)
  | arr (xs : List Json)
  | obj (fields : List (String × Json))
deriving Repr

/-- Drop leading JSON insignificant whitespace. -/
def skipWs : List Char → List Char
  | [] => []
  | c :: rest => if isWsChar c then skipWs rest else c :: rest

/-- Parse the remainder of a JSON string literal (after the opening quote),
decoding the simple escapes; fuel at least the remaining length. -/
def parseStrAux : Nat → List Char → Option (String × List Char)
  | _, [] => none
  | 0, _ :: _ => none
  | fuel + 1, c :: rest =>
    if c = '"' then some ("", rest)
    else if c = '\\' then
      match rest with
      | [] => none
      | e :: rest2 =>
        let dec : Option Char :=
          if e = '"' then some '"' else if e = '\\' then some '\\'
          else if e = '/' then some '/' else if e = 'n' then some '\n'
          else if e = 't' then some '\t' else if e = 'r' then some '\r'
          else none
        match dec with
        | none => none
        | some d =>
          match parseStrAux fuel rest2 with
          | some (s, r) => some (String.mk (d :: s.data), r)
          | none => none
    else
      match parseStrAux fuel rest with
      | some (s, r) => some (String.mk (c :: s.data), r)
      | none => none

/-- A character that may continue a JSON numeral. -/
def isNumChar (c : Char) : Bool :=
  c.isDigit || c = '-' || c = '+' || c = '.' || c = 'e' || c = 'E'

/-- What the recursive-descent parser is currently reading: a value, the
elements of an array, or the members of an object. -/
inductive PMode
  | val
  | elems (acc : List Json)
  | members (acc : List (String × Json))

/-- Fuel-driven recursive-descent JSON parser. -/
def parseP : Nat → PMode → List Char → Option (Json × List Char)
  | 0, _, _ => none
  | fuel + 1, PMode.val, cs =>
    match skipWs cs with
    | [] => none
    | c :: rest =>
      if c = 'n' then
        if rest.take 3 = ['u', 'l', 'l'] then some (Json.null, rest.drop 3) else none
      else if c = 't' then
        if rest.take 3 = ['r', 'u', 'e'] then some (Json.bool true, rest.drop 3)
        else none
      else if c = 'f' then
        if rest.take 4 = ['a', 'l', 's', 'e'] then some (Json.bool false, rest.drop 4)
        else none
      else if c = '"' then
        match parseStrAux rest.length rest with
        | some (s, r) => some (Json.str s, r)
        | none => none
      else if c = '[' then
        match skipWs rest with
        | ']' :: r => some (Json.arr [], r)
        | _ => parseP fuel (PMode.elems []) rest
      else if c = '{' then
        match skipWs rest with
        | '}' :: r => some (Json.obj [], r)
        | _ => parseP fuel (PMode.members []) rest
      else if c.isDigit || c = '-' then
        some (Json.num (String.mk ((c :: rest).takeWhile isNumChar)),
              (c :: rest).dropWhile isNumChar)
      else none
  | fuel + 1, PMode.elems acc, cs =>
    match parseP fuel PMode.val cs with
    | none => none
    | some (v, r) =>
      match skipWs r with
      | ',' :: r2 => parseP fuel (PMode.elems (acc ++ [v])) r2
      | ']' :: r2 => some (Json.arr (acc ++ [v]), r2)
      | _ => none
  | fuel + 1, PMode.members acc, cs =>
    match skipWs cs with
    | '"' :: r =>
      match parseStrAux r.length r with
      | none => none
      | some (key, r2) =>
        match skipWs r2 with
        | ':' :: r3 =>
          match parseP fuel PMode.val r3 with
          | none => none
          | some (v, r4) =>
            match skipWs r4 with
            | ',' :: r5 => parseP fuel (PMode.members (acc ++ [(key, v)])) r5
            | '}' :: r5 => some (Json.obj (acc ++ [(key, v)]), r5)
            | _ => none
        | _ => none
    | _ => none

/-- JSON.parse: parse one value and require only whitespace after it. -/
def jsonParse (s : String) : Option Json :=
  match parseP (2 * s.data.length + 2) PMode.val s.data with
  | some (v, rest) => if skipWs rest = [] then some v else none
  | none => none

/-! ### The POST /api/redact handler -/

/-- JS String.prototype.indexOf for a single character. -/
def jsIndexOf (c : Char) (s : List Char) : Option Nat := s.indexOf? c

/-- JS String.prototype.lastIndexOf for a single character. -/
def jsLastIndexOf (c : Char) (s : List Char) : Option Nat :=
  match s.reverse.indexOf? c with
  | some i => some (s.length - 1 - i)
  | none => none

/-- JS String.prototype.substring: clamps and swaps its two indices. -/
def jsSubstring (s : List Char) (a b : Nat) : List Char :=
  (s.take (max a b)).drop (min a b)

/-- The fence-stripping fallback: drop a leading case-insensitive markdown
code fence with json tag and a trailing fence. -/
def stripFences (s : List Char) : List Char :=
  let s1 := if (s.take 7).map lc = "```json".data then s.drop 7 else s
  if "```".data.isSuffixOf s1 then s1.take (s1.length - 3) else s1

/-- The cleanup in route.ts: take the substring from the first opening
bracket to the last closing bracket when both exist, else strip markdown
fences and trim. -/
def cleanedOf (rawText : String) : String :=
  let cs := rawText.data
  match jsIndexOf '[' cs, jsLastIndexOf ']' cs with
  | some i, some j => String.mk (jsSubstring cs i (j + 1))
  | _, _ => String.mk (trimChars (stripFences cs))

/-- What the endpoint replies with: a 200 body carrying the pii array, or
an error status with an error message and optionally the raw payload. -/
inductive ApiResponse
  | ok (pii : List Json)
  | err (status : Nat) (error : String) (raw : Option String)
deriving Repr

/-- The POST /api/redact handler after the upstream model call returned
rawText: validate the API key, clean the reply, parse it; a parse failure
is a 500 carrying the raw payload, a parsed non-array is coerced to the
empty array and returned as a success. -/
def postRedact (apiKeySet : Bool) (rawText : String) : ApiResponse :=
  if apiKeySet then
    match jsonParse (cleanedOf rawText) with
    | none =>
      ApiResponse.err 500 "Failed to parse AI response. Expected a list." (some rawText)
    | some (Json.arr xs) => ApiResponse.ok xs
    | some _ => ApiResponse.ok []
  else ApiResponse.err 500 "GEMINI_API_KEY is not set" none

/-! ### Spec-side measuring functions -/

/-- Number of occurrences of the confidentiality marker in the first
section's primary header. -/
def headerMarkerCount (d : Doc) : Nat :=
  match d.sections with
  | [] => 0
  | s :: _ => occursCount marker.data (headerChars s.header)

/-- Whether the first section's primary header contains the marker. -/
def markerInHeader (d : Doc) : Bool :=
  match d.sections with
  | [] => false
  | s :: _ => jsIncludes marker.data (headerChars s.header)

/-- A per-span progress message of the redaction loop. -/
def isProcessingMsg (m : String) : Bool :=
  "Protecting data (".data.isPrefixOf m.data

/-- The tracking mode in effect after a list of mutating calls. -/
def modeAfter (m : TrackMode) : List Op → TrackMode
  | [] => m
  | Op.setMode m' :: rest => modeAfter m' rest
  | _ :: rest => modeAfter m rest

/-- Checks along an operation trace that every hyperlink strip happens
with tracking off and every redaction replacement with tracking on. -/
def hyperlinkOpsOk : TrackMode → List Op → Bool
  | _, [] => true
  | _, Op.setMode m' :: rest => hyperlinkOpsOk m' rest
  | m, Op.clearHyperlink :: rest => (m == TrackMode.off) && hyperlinkOpsOk m rest
  | m, Op.replaceWithRedacted :: rest =>
    (m == TrackMode.trackAll) && hyperlinkOpsOk m rest
  | m, Op.insertHeaderPara _ :: rest => hyperlinkOpsOk m rest

/-- A pattern has no border when no nonempty proper suffix of it is also a
prefix of it; then its occurrences cannot overlap. -/
def NoBorder (p : List Char) : Prop :=
  ∀ k, k < p.length → 0 < k → p.take k ≠ p.drop (p.length - k)

/-! ### Occurrence-count lemmas for the confidentiality marker -/

/-- A pattern occurs at least once exactly when it is a substring. -/
lemma occursCount_pos_iff_substring (p : List Char) (hp : p ≠ []) :
    ∀ s, 0 < occursCount p s ↔ p <:+: s := by
  intro s
  induction s with
  | nil =>
    simp only [occursCount, List.infix_nil]
    constructor
    · intro h; exact (Nat.lt_irrefl 0 h).elim
    · intro h; exact absurd h hp
  | cons c cs ih =>
    simp only [occursCount, List.infix_cons_iff]
    constructor
    · intro h
      by_cases hpre : p.isPrefixOf (c :: cs)
      · exact Or.inl (List.isPrefixOf_iff_prefix.mp hpre)
      · right
        apply ih.mp
        simpa [hpre] using h
    · intro h
      rcases h with h | h
      · have hb : p.isPrefixOf (c :: cs) := List.isPrefixOf_iff_prefix.mpr h
        simp [hb]
      · have := ih.mpr h
        omega

/-- No occurrence of a borderless pattern can start inside a proper suffix
of the pattern itself. -/
lemma occursCount_proper_suffix (p : List Char) (hnb : NoBorder p) :
    ∀ (v s : List Char), v <:+ p → v.length < p.length →
      occursCount p (v ++ s) = occursCount p s := by
  intro v
  induction v with
  | nil => intro s _ _; rfl
  | cons c v' ih =>
    intro s hsuf hlen
    have hsuf' : v' <:+ p := (List.suffix_cons c v').trans hsuf
    have hlen' : v'.length < p.length := by
      simp only [List.length_cons] at hlen; omega
    have hnotpre : ¬ p.isPrefixOf ((c :: v') ++ s) := by
      intro hpre
      have hpfx : p <+: (c :: v') ++ s := List.isPrefixOf_iff_prefix.mp hpre
      rcases hpfx with ⟨t, ht⟩
      have htake : ((c :: v') ++ s).take (c :: v').length = c :: v' :=
        List.take_left (c :: v') s
      have htake2 : (p ++ t).take (c :: v').length = p.take (c :: v').length :=
        List.take_append_of_le_length (Nat.le_of_lt hlen)
      rw [ht] at htake2
      have hborder : p.take (c :: v').length = c :: v' := by
        rw [← htake2, htake]
      have hdrop : c :: v' = p.drop (p.length - (c :: v').length) :=
        List.suffix_iff_eq_drop.mp hsuf
      exact hnb (c :: v').length hlen (Nat.succ_pos _) (hborder.trans hdrop)
    calc occursCount p ((c :: v') ++ s)
        = (if p.isPrefixOf (c :: (v' ++ s)) then 1 else 0) +
            occursCount p (v' ++ s) := rfl
      _ = occursCount p (v' ++ s) := by
            rw [if_neg (by simpa using hnotpre)]
            exact Nat.zero_add _
      _ = occursCount p s := ih s hsuf' hlen'

/-- Prepending a borderless pattern to a text adds exactly one occurrence. -/
lemma occursCount_self_append (p : List Char) (hnb : NoBorder p)
    (s : List Char) (hp : p ≠ []) :
    occursCount p (p ++ s) = 1 + occursCount p s := by
  rcases List.exists_cons_of_ne_nil hp with ⟨c, p', hpc⟩
  have hpre : p.isPrefixOf (c :: (p' ++ s)) := by
    rw [← List.cons_append, ← hpc]
    exact List.isPrefixOf_iff_prefix.mpr (List.prefix_append p s)
  have hsuf : p' <:+ p := by rw [hpc]; exact List.suffix_cons c p'
  have hlen : p'.length < p.length := by rw [hpc]; simp
  calc occursCount p (p ++ s)
      = occursCount p (c :: (p' ++ s)) := by rw [hpc, List.cons_append]
    _ = (if p.isPrefixOf (c :: (p' ++ s)) then 1 else 0) +
          occursCount p (p' ++ s) := rfl
    _ = 1 + occursCount p (p' ++ s) := by rw [if_pos hpre]
    _ = 1 + occursCount p s := by
          rw [occursCount_proper_suffix p hnb p' s hsuf hlen]

/-- The confidentiality marker has no border. -/
lemma marker_noBorder : NoBorder marker.data := by
  unfold NoBorder
  decide

/-- The marker is nonempty. -/
lemma marker_ne_nil : marker.data ≠ [] := by decide

/-- The marker never starts at a paragraph break. -/
lemma marker_not_prefix_newline (t : List Char) :
    marker.data.isPrefixOf ('\n' :: t) = false := by
  have h : marker.data = 'C' :: "ONFIDENTIAL DOCUMENT".data := by decide
  rw [h]
  simp [List.isPrefixOf]

/-! ### Header-insertion lemmas -/

/-- The substring test agrees with the infix relation. -/
lemma jsIncludes_eq_true_iff (p s : List Char) : jsIncludes p s = true ↔ p <:+: s := by
  simp [jsIncludes]

/-- A header that does not contain the marker has zero marker occurrences. -/
lemma jsIncludes_false_count (s : List Char)
    (h : jsIncludes marker.data s = false) :
    occursCount marker.data s = 0 := by
  by_contra hne
  have hpos : 0 < occursCount marker.data s := Nat.pos_of_ne_zero hne
  have hinf := (occursCount_pos_iff_substring marker.data marker_ne_nil s).mp hpos
  rw [(jsIncludes_eq_true_iff _ _).mpr hinf] at h
  exact Bool.noConfusion h

/-- Header text after inserting the marker paragraph before others. -/
lemma headerChars_insert_cons (q : Para) (rest : List Para) :
    headerChars (confidentialPara :: q :: rest) =
      marker.data ++ '\n' :: headerChars (q :: rest) := rfl

/-- Inserting the marker paragraph into a marker-free header yields exactly
one marker occurrence. -/
lemma occursCount_insert (ps : List Para)
    (h : occursCount marker.data (headerChars ps) = 0) :
    occursCount marker.data (headerChars (confidentialPara :: ps)) = 1 := by
  cases ps with
  | nil => decide
  | cons q rest =>
    rw [headerChars_insert_cons]
    rw [occursCount_self_append marker.data marker_noBorder _ marker_ne_nil]
    have hstep : occursCount marker.data ('\n' :: headerChars (q :: rest)) =
        occursCount marker.data (headerChars (q :: rest)) := by
      show (if marker.data.isPrefixOf ('\n' :: headerChars (q :: rest)) then 1 else 0) +
          occursCount marker.data (headerChars (q :: rest)) = _
      rw [marker_not_prefix_newline]
      simp
    rw [hstep, h]

/-- After inserting the marker paragraph the header contains the marker. -/
lemma jsIncludes_insert (ps : List Para) :
    jsIncludes marker.data (headerChars (confidentialPara :: ps)) = true := by
  cases ps with
  | nil => decide
  | cons q rest =>
    rw [headerChars_insert_cons]
    exact (jsIncludes_eq_true_iff _ _).mpr (List.prefix_append _ _).isInfix

/-- C4, counterexample: a document whose first-section header already holds
the marker twice keeps both occurrences across two invocations of
addConfidentialHeader, so the claim's "exactly one occurrence for every
document" fails. -/
theorem claim_C4_counterexample :
    headerMarkerCount
      (addConfidentialHeader (addConfidentialHeader
        (Doc.mk TrackMode.off
          [Sec.mk [Para.mk "CONFIDENTIAL DOCUMENT CONFIDENTIAL DOCUMENT" false "" 0 false]]
          "")).1).1 = 2 ∧
    headerMarkerCount
      (addConfidentialHeader (addConfidentialHeader
        (Doc.mk TrackMode.off
          [Sec.mk [Para.mk "CONFIDENTIAL DOCUMENT CONFIDENTIAL DOCUMENT" false "" 0 false]]
          "")).1).1 ≠ 1 := by
  constructor
  · decide
  · decide

/-- C4, amended: for a document with at least one section, invoking
addConfidentialHeader twice equals invoking it once (the check-before-
insert makes the second call a no-op), and when the first section's
primary header does not already contain the marker the call leaves
exactly one occurrence of "CONFIDENTIAL DOCUMENT" there. -/
theorem claim_C4_idempotent_header (mode : TrackMode) (s0 : Sec) (rest : List Sec)
    (body : String) :
    (addConfidentialHeader (addConfidentialHeader (Doc.mk mode (s0 :: rest) body)).1).1 =
      (addConfidentialHeader (Doc.mk mode (s0 :: rest) body)).1 ∧
    (jsIncludes marker.data (headerChars s0.header) = false →
      headerMarkerCount (addConfidentialHeader (Doc.mk mode (s0 :: rest) body)).1 = 1) := by
  cases hinc : jsIncludes marker.data (headerChars s0.header) with
  | true =>
    constructor
    · simp [addConfidentialHeader, hinc]
    · intro hfalse
      simp [hinc] at hfalse
  | false =>
    have h1 : addConfidentialHeader (Doc.mk mode (s0 :: rest) body) =
        (Doc.mk mode (Sec.mk (confidentialPara :: s0.header) :: rest) body,
         [Op.insertHeaderPara marker]) := by
      simp [addConfidentialHeader, hinc]
    constructor
    · rw [h1]
      simp [addConfidentialHeader, jsIncludes_insert]
    · intro _
      rw [h1]
      show occursCount marker.data (headerChars (confidentialPara :: s0.header)) = 1
      exact occursCount_insert _ (jsIncludes_false_count _ hinc)

/-- C4, witness: a document with one section and an empty header satisfies
the amended theorem's hypothesis, and one invocation leaves exactly one
marker occurrence. -/
theorem claim_C4_witness :
    jsIncludes marker.data (headerChars (Sec.mk []).header) = false ∧
    headerMarkerCount (addConfidentialHeader (Doc.mk TrackMode.off [Sec.mk []] "x")).1 = 1 :=
  ⟨by decide,
   (claim_C4_idempotent_header TrackMode.off (Sec.mk []) [] "x").2 (by decide)⟩

/-- C9: enableTracking is idempotent: on a document whose change-tracking
mode is already trackAll, enableTrackChanges issues zero mutating calls
and returns the document unchanged (it only reads the mode), whether or
not the capability is supported. -/
theorem claim_C9_enableTracking_idempotent (supported : Bool) (secs : List Sec)
    (body : String) :
    enableTrackChanges supported (Doc.mk TrackMode.trackAll secs body) =
      (Doc.mk TrackMode.trackAll secs body, []) := by
  cases supported <;> simp [enableTrackChanges]

/-- C8: rejectAllChanges with the tracked-change-rejection capability
rejects every tracked change in the body and the first section's primary
header, restoring each run's pre-change text, and throws nothing; without
the capability it throws the message instructing manual reversal and
leaves the document unchanged. -/
theorem claim_C8_rejectAllChanges (d : RDoc) :
    ((rejectAllChanges true d).1.body.map TRun.current = d.body.map TRun.original ∧
     (rejectAllChanges true d).1.header.map TRun.current = d.header.map TRun.original ∧
     (rejectAllChanges true d).2 = none) ∧
    rejectAllChanges false d = (d, some rejectUnsupportedMsg) := by
  refine ⟨⟨?_, ?_, rfl⟩, rfl⟩ <;>
    simp [rejectAllChanges, rejectRun, List.map_map, Function.comp]

/-! ### Operation-trace lemmas -/

/-- The tracking mode after a concatenated trace. -/
lemma modeAfter_append (xs ys : List Op) :
    ∀ m, modeAfter m (xs ++ ys) = modeAfter (modeAfter m xs) ys := by
  induction xs with
  | nil => intro m; rfl
  | cons op rest ih =>
    intro m
    cases op with
    | setMode m' => simp [modeAfter, ih]
    | clearHyperlink => simp [modeAfter, ih]
    | replaceWithRedacted => simp [modeAfter, ih]
    | insertHeaderPara t => simp [modeAfter, ih]

/-- The trace check splits over concatenation. -/
lemma hyperlinkOpsOk_append (xs ys : List Op) :
    ∀ m, hyperlinkOpsOk m (xs ++ ys) =
      (hyperlinkOpsOk m xs && hyperlinkOpsOk (modeAfter m xs) ys) := by
  induction xs with
  | nil => intro m; simp [hyperlinkOpsOk, modeAfter]
  | cons op rest ih =>
    intro m
    cases op with
    | setMode m' => simp [hyperlinkOpsOk, modeAfter, ih]
    | clearHyperlink => simp [hyperlinkOpsOk, modeAfter, ih, Bool.and_assoc]
    | replaceWithRedacted => simp [hyperlinkOpsOk, modeAfter, ih, Bool.and_assoc]
    | insertHeaderPara t => simp [hyperlinkOpsOk, modeAfter, ih]

/-- One occurrence's four calls pass the check from any starting mode. -/
lemma hyperlinkOpsOk_occOps (m : TrackMode) : hyperlinkOpsOk m occOps = true := rfl

/-- One occurrence's calls leave tracking on. -/
lemma modeAfter_occOps (m : TrackMode) : modeAfter m occOps = TrackMode.trackAll := rfl

/-- The calls for k occurrences pass the check, and leave tracking on when
there is at least one occurrence. -/
lemma occurrenceOps_ok (k : Nat) (m : TrackMode) :
    hyperlinkOpsOk m (occurrenceOps k) = true ∧
    modeAfter m (occurrenceOps k) = (if k = 0 then m else TrackMode.trackAll) := by
  induction k generalizing m with
  | zero => simp [occurrenceOps, hyperlinkOpsOk, modeAfter]
  | succ n ih =>
    have hexp : occurrenceOps (n + 1) = occOps ++ occurrenceOps n := by
      simp [occurrenceOps, List.replicate_succ]
    constructor
    · rw [hexp, hyperlinkOpsOk_append, hyperlinkOpsOk_occOps, modeAfter_occOps]
      simp [(ih TrackMode.trackAll).1]
    · rw [hexp, modeAfter_append, modeAfter_occOps, (ih TrackMode.trackAll).2]
      cases n <;> simp

/-- The redaction loop only appends trace-passing calls. -/
lemma redactLoop_ops_ok (total : Nat) :
    ∀ (items : List String) (st : LoopState) (m0 : TrackMode),
      hyperlinkOpsOk m0 st.ops = true →
      hyperlinkOpsOk m0 (redactLoop total items st).ops = true := by
  intro items
  induction items with
  | nil => intro st m0 h; simpa [redactLoop] using h
  | cons item rest ih =>
    intro st m0 h
    by_cases hb : isBlank item
    · rw [redactLoop, if_pos hb]
      exact ih st m0 h
    · rw [redactLoop, if_neg hb]
      apply ih
      simp only [hyperlinkOpsOk_append, h]
      simp [(occurrenceOps_ok _ _).1]

/-- The preparation step's mutating calls pass the trace check. -/
lemma enableTrackChanges_ops_ok (supported : Bool) (d : Doc) (m : TrackMode) :
    hyperlinkOpsOk m (enableTrackChanges supported d).2 = true := by
  unfold enableTrackChanges
  split_ifs <;> rfl

/-- The header step's mutating calls pass the trace check. -/
lemma addConfidentialHeader_ops_ok (d : Doc) (m : TrackMode) :
    hyperlinkOpsOk m (addConfidentialHeader d).2 = true := by
  unfold addConfidentialHeader
  cases hs : d.sections with
  | nil => rfl
  | cons s0 rest =>
    by_cases h : jsIncludes marker.data (headerChars s0.header) = true
    · simp [h, hyperlinkOpsOk]
    · simp [h, hyperlinkOpsOk]

/-! ### Preparation-step lemmas -/

/-- enableTrackChanges never changes the body. -/
lemma enableTrackChanges_body (supported : Bool) (d : Doc) :
    (enableTrackChanges supported d).1.body = d.body := by
  unfold enableTrackChanges
  split_ifs <;> rfl

/-- enableTrackChanges never changes the sections. -/
lemma enableTrackChanges_sections (supported : Bool) (d : Doc) :
    (enableTrackChanges supported d).1.sections = d.sections := by
  unfold enableTrackChanges
  split_ifs <;> rfl

/-- When the capability is supported, tracking is on afterwards. -/
lemma enableTrackChanges_mode_true (d : Doc) :
    (enableTrackChanges true d).1.mode = TrackMode.trackAll := by
  unfold enableTrackChanges
  split_ifs with h1 h2
  · rfl
  · simpa using h2
  · exact absurd rfl h1

/-- enableTrackChanges never issues a redaction replacement. -/
lemma enableTrackChanges_no_replace (supported : Bool) (d : Doc) :
    Op.replaceWithRedacted ∉ (enableTrackChanges supported d).2 := by
  unfold enableTrackChanges
  split_ifs <;> simp

/-- addConfidentialHeader never changes the body. -/
lemma addConfidentialHeader_body (d : Doc) :
    (addConfidentialHeader d).1.body = d.body := by
  unfold addConfidentialHeader
  cases d.sections with
  | nil => rfl
  | cons s0 rest =>
    by_cases h : jsIncludes marker.data (headerChars s0.header) = true <;> simp [h]

/-- addConfidentialHeader never changes the tracking mode. -/
lemma addConfidentialHeader_mode (d : Doc) :
    (addConfidentialHeader d).1.mode = d.mode := by
  unfold addConfidentialHeader
  cases d.sections with
  | nil => rfl
  | cons s0 rest =>
    by_cases h : jsIncludes marker.data (headerChars s0.header) = true <;> simp [h]

/-- addConfidentialHeader never issues a redaction replacement. -/
lemma addConfidentialHeader_no_replace (d : Doc) :
    Op.replaceWithRedacted ∉ (addConfidentialHeader d).2 := by
  unfold addConfidentialHeader
  cases d.sections with
  | nil => simp
  | cons s0 rest =>
    by_cases h : jsIncludes marker.data (headerChars s0.header) = true <;> simp [h]

/-- After addConfidentialHeader on a document with a section, the first
section's header contains the marker. -/
lemma addConfidentialHeader_marker (d : Doc) (s0 : Sec) (rest : List Sec)
    (hs : d.sections = s0 :: rest) :
    markerInHeader (addConfidentialHeader d).1 = true := by
  unfold addConfidentialHeader
  rw [hs]
  by_cases h : jsIncludes marker.data (headerChars s0.header) = true
  · simp only [h, if_true]
    unfold markerInHeader
    rw [hs]
    exact h
  · simp only [h, if_false]
    exact jsIncludes_insert s0.header

/-- C6: along the run's whole trace of mutating calls, tracking is off at
every hyperlink strip and back to trackAll at every text replacement: the
unlink is never a tracked change, the "[REDACTED]" replacement always is. -/
theorem claim_C6_unlink_untracked_replace_tracked (supported : Bool)
    (resp : FetchResult) (d : Doc) :
    hyperlinkOpsOk d.mode (formatAndRedactDocument supported resp d).ops = true := by
  have hprep : ∀ m, hyperlinkOpsOk m ((enableTrackChanges supported d).2 ++
      (addConfidentialHeader (enableTrackChanges supported d).1).2) = true := by
    intro m
    rw [hyperlinkOpsOk_append, enableTrackChanges_ops_ok, addConfidentialHeader_ops_ok]
    rfl
  simp only [formatAndRedactDocument]
  split
  · exact hprep _
  · split
    · exact hprep _
    · split
      · exact hprep _
      · exact redactLoop_ops_ok _ _ _ _ (hprep _)

/-- C2, counterexample: on a document with an empty body, empty header and
tracking off, the workflow reports the empty-document status but has
already mutated the document: tracking is enabled and the confidentiality
header is inserted, so "performs no document mutation at all" fails. -/
theorem claim_C2_counterexample :
    (formatAndRedactDocument true (FetchResult.ok none)
        (Doc.mk TrackMode.off [Sec.mk []] "")).doc =
      Doc.mk TrackMode.trackAll [Sec.mk [confidentialPara]] "" ∧
    Doc.mk TrackMode.trackAll [Sec.mk [confidentialPara]] "" ≠
      Doc.mk TrackMode.off [Sec.mk []] "" ∧
    (formatAndRedactDocument true (FetchResult.ok none)
        (Doc.mk TrackMode.off [Sec.mk []] "")).msgs.getLast? =
      some "The document appears to be empty." :=
  ⟨rfl, by decide, rfl⟩

/-- C2, amended: for every document whose body text is empty or
whitespace-only, the workflow reports the empty-document status and ends
the run early: no classification and no body mutation happen, the whole
run equals the preparation steps alone (which do enable tracking and
insert the header), and the body is left unchanged. -/
theorem claim_C2_empty_document (supported : Bool) (resp : FetchResult) (d : Doc)
    (h : isBlank d.body = true) :
    formatAndRedactDocument supported resp d =
      { doc := (addConfidentialHeader (enableTrackChanges supported d).1).1,
        msgs := ["Setting up document tracking...", "Reading document content...",
                 "The document appears to be empty."],
        ops := (enableTrackChanges supported d).2 ++
               (addConfidentialHeader (enableTrackChanges supported d).1).2,
        err := none } ∧
    (addConfidentialHeader (enableTrackChanges supported d).1).1.body = d.body := by
  have hbody : (addConfidentialHeader (enableTrackChanges supported d).1).1.body =
      d.body := by
    rw [addConfidentialHeader_body, enableTrackChanges_body]
  constructor
  · simp only [formatAndRedactDocument, hbody, h]
    simp
  · exact hbody

/-- C2, witness: a whitespace-only body with no sections and the
capability unsupported: the run reports the empty-document status, issues
no mutating calls and changes nothing. -/
theorem claim_C2_witness :
    isBlank "  " = true ∧
    formatAndRedactDocument false (FetchResult.ok none) (Doc.mk TrackMode.off [] "  ") =
      { doc := Doc.mk TrackMode.off [] "  ",
        msgs := ["Setting up document tracking...", "Reading document content...",
                 "The document appears to be empty."],
        ops := [], err := none } :=
  ⟨by decide,
   (claim_C2_empty_document false (FetchResult.ok none)
     (Doc.mk TrackMode.off [] "  ") (by decide)).1⟩

/-- C7: when the classification call fails (non-2xx), the workflow throws
exactly the endpoint's error message (or the generic fallback when the
body carried no message), aborts the remaining redaction steps (no
replacement call, no further progress message), and does not roll back
the preparation: tracking stays enabled, the header stays inserted, and
the body is untouched. -/
theorem claim_C7_classification_failure (mode : TrackMode) (s0 : Sec)
    (rest : List Sec) (body : String) (errorField : Option String)
    (h : isBlank body = false) :
    (∀ m, errorField = some m → m ≠ "" →
      (formatAndRedactDocument true (FetchResult.httpError errorField)
        (Doc.mk mode (s0 :: rest) body)).err = some m) ∧
    (errorField = none →
      (formatAndRedactDocument true (FetchResult.httpError errorField)
        (Doc.mk mode (s0 :: rest) body)).err = some "AI Service Unavailable") ∧
    (formatAndRedactDocument true (FetchResult.httpError errorField)
        (Doc.mk mode (s0 :: rest) body)).doc.mode = TrackMode.trackAll ∧
    markerInHeader (formatAndRedactDocument true (FetchResult.httpError errorField)
        (Doc.mk mode (s0 :: rest) body)).doc = true ∧
    (formatAndRedactDocument true (FetchResult.httpError errorField)
        (Doc.mk mode (s0 :: rest) body)).doc.body = body ∧
    (formatAndRedactDocument true (FetchResult.httpError errorField)
        (Doc.mk mode (s0 :: rest) body)).msgs =
      ["Setting up document tracking...", "Reading document content...",
       "AI is identifying sensitive data..."] ∧
    Op.replaceWithRedacted ∉
      (formatAndRedactDocument true (FetchResult.httpError errorField)
        (Doc.mk mode (s0 :: rest) body)).ops := by
  have hbody : (addConfidentialHeader
      (enableTrackChanges true (Doc.mk mode (s0 :: rest) body)).1).1.body = body := by
    rw [addConfidentialHeader_body, enableTrackChanges_body]
  have hrun : formatAndRedactDocument true (FetchResult.httpError errorField)
      (Doc.mk mode (s0 :: rest) body) =
      { doc := (addConfidentialHeader
          (enableTrackChanges true (Doc.mk mode (s0 :: rest) body)).1).1,
        msgs := ["Setting up document tracking...", "Reading document content...",
                 "AI is identifying sensitive data..."],
        ops := (enableTrackChanges true (Doc.mk mode (s0 :: rest) body)).2 ++
          (addConfidentialHeader
            (enableTrackChanges true (Doc.mk mode (s0 :: rest) body)).1).2,
        err := some (match errorField with
          | some s => if s = "" then "AI Service Unavailable" else s
          | none => "AI Service Unavailable") } := by
    simp only [formatAndRedactDocument, hbody, h]
    simp
  refine ⟨?_, ?_, ?_, ?_, ?_, ?_, ?_⟩
  · intro m hm hne
    rw [hrun, hm]
    simp [hne]
  · intro hm
    rw [hrun, hm]
  · rw [hrun]
    show (addConfidentialHeader _).1.mode = TrackMode.trackAll
    rw [addConfidentialHeader_mode, enableTrackChanges_mode_true]
  · rw [hrun]
    exact addConfidentialHeader_marker _ s0 rest
      (by rw [enableTrackChanges_sections])
  · rw [hrun]
    exact hbody
  · rw [hrun]
  · rw [hrun]
    intro hmem
    rcases List.mem_append.mp hmem with hm | hm
    · exact enableTrackChanges_no_replace _ _ hm
    · exact addConfidentialHeader_no_replace _ hm

/-- C7, witness: the spec's concrete scenario: HTTP 500 with error "quota
exceeded" on a nonempty body: the workflow throws exactly that message and
the document keeps tracking enabled and the confidentiality header. -/
theorem claim_C7_witness :
    (formatAndRedactDocument true (FetchResult.httpError (some "quota exceeded"))
        (Doc.mk TrackMode.off [Sec.mk []]
          "Contact John at john@example.com or 555-123-4567.")).err =
      some "quota exceeded" ∧
    (formatAndRedactDocument true (FetchResult.httpError (some "quota exceeded"))
        (Doc.mk TrackMode.off [Sec.mk []]
          "Contact John at john@example.com or 555-123-4567.")).doc.mode =
      TrackMode.trackAll ∧
    markerInHeader (formatAndRedactDocument true
        (FetchResult.httpError (some "quota exceeded"))
        (Doc.mk TrackMode.off [Sec.mk []]
          "Contact John at john@example.com or 555-123-4567.")).doc = true := by
  have hth := claim_C7_classification_failure TrackMode.off (Sec.mk []) []
    "Contact John at john@example.com or 555-123-4567." (some "quota exceeded")
    (by decide)
  exact ⟨hth.1 "quota exceeded" rfl (by decide), hth.2.2.1, hth.2.2.2.1⟩

/-- C10: a successful classification response whose JSON body lacks the
pii field defaults to the empty span list: the workflow reports the
no-sensitive-data status, replaces nothing, leaves the body unchanged and
completes without error. -/
theorem claim_C10_missing_pii_field (supported : Bool) (d : Doc)
    (h : isBlank d.body = false) :
    (formatAndRedactDocument supported (FetchResult.ok none) d).err = none ∧
    (formatAndRedactDocument supported (FetchResult.ok none) d).doc.body = d.body ∧
    Op.replaceWithRedacted ∉
      (formatAndRedactDocument supported (FetchResult.ok none) d).ops ∧
    (formatAndRedactDocument supported (FetchResult.ok none) d).msgs =
      ["Setting up document tracking...", "Reading document content...",
       "AI is identifying sensitive data...", "No sensitive data found. You're clear!"] := by
  have hbody : (addConfidentialHeader
      (enableTrackChanges supported d).1).1.body = d.body := by
    rw [addConfidentialHeader_body, enableTrackChanges_body]
  have hrun : formatAndRedactDocument supported (FetchResult.ok none) d =
      { doc := (addConfidentialHeader (enableTrackChanges supported d).1).1,
        msgs := ["Setting up document tracking...", "Reading document content...",
                 "AI is identifying sensitive data...",
                 "No sensitive data found. You're clear!"],
        ops := (enableTrackChanges supported d).2 ++
          (addConfidentialHeader (enableTrackChanges supported d).1).2,
        err := none } := by
    simp only [formatAndRedactDocument, hbody, h]
    simp
  rw [hrun]
  refine ⟨rfl, hbody, ?_, rfl⟩
  intro hmem
  rcases List.mem_append.mp hmem with hm | hm
  · exact enableTrackChanges_no_replace _ _ hm
  · exact addConfidentialHeader_no_replace _ hm

/-- C10, witness: a nonempty body with a pii-less 2xx response completes
without error, changes no body text and reports the no-data status. -/
theorem claim_C10_witness :
    (formatAndRedactDocument true (FetchResult.ok none)
        (Doc.mk TrackMode.off [Sec.mk []] "some text")).err = none ∧
    (formatAndRedactDocument true (FetchResult.ok none)
        (Doc.mk TrackMode.off [Sec.mk []] "some text")).doc.body = "some text" ∧
    (formatAndRedactDocument true (FetchResult.ok none)
        (Doc.mk TrackMode.off [Sec.mk []] "some text")).msgs =
      ["Setting up document tracking...", "Reading document content...",
       "AI is identifying sensitive data...", "No sensitive data found. You're clear!"] := by
  have hth := claim_C10_missing_pii_field true
    (Doc.mk TrackMode.off [Sec.mk []] "some text") (by decide)
  exact ⟨hth.1, hth.2.1, hth.2.2.2⟩

/-! ### Redaction-split and loop lemmas -/

/-- The redaction split produces exactly one token per occurrence. -/
lemma splitRedactAux_count (pat : List Char) :
    ∀ (fuel : Nat) (text : List Char),
      (splitRedactAux pat fuel text).count redactToken = ciCountAux pat fuel text := by
  intro fuel
  induction fuel with
  | zero => intro text; cases text <;> rfl
  | succ n ih =>
    intro text
    cases text with
    | nil => rfl
    | cons c rest =>
      by_cases hcond : pat ≠ [] ∧ ciPrefix pat (c :: rest) = true
      · simp only [splitRedactAux, ciCountAux, if_pos hcond]
        rw [List.count_cons_self, ih]
        omega
      · simp only [splitRedactAux, ciCountAux, if_neg hcond]
        rw [List.count_cons_of_ne (by simp [redactToken]), ih]

/-- Every fragment the split produces is an untouched character or the
styled redaction token. -/
lemma splitRedactAux_shape (pat : List Char) :
    ∀ (fuel : Nat) (text : List Char) (f : Frag),
      f ∈ splitRedactAux pat fuel text →
      (∃ c, f = Frag.plain c) ∨ f = redactToken := by
  intro fuel
  induction fuel with
  | zero =>
    intro text f hf
    cases text <;> simp [splitRedactAux] at hf
  | succ n ih =>
    intro text f hf
    cases text with
    | nil => simp [splitRedactAux] at hf
    | cons c rest =>
      by_cases hcond : pat ≠ [] ∧ ciPrefix pat (c :: rest) = true
      · rw [splitRedactAux, if_pos hcond] at hf
        rcases List.mem_cons.mp hf with hf | hf
        · exact Or.inr hf
        · exact ih _ f hf
      · rw [splitRedactAux, if_neg hcond] at hf
        rcases List.mem_cons.mp hf with hf | hf
        · exact Or.inl ⟨c, hf⟩
        · exact ih _ f hf

/-- The loop never touches the sections (the header is never redacted). -/
lemma redactLoop_sections (total : Nat) :
    ∀ (items : List String) (st : LoopState),
      (redactLoop total items st).doc.sections = st.doc.sections := by
  intro items
  induction items with
  | nil => intro st; rfl
  | cons item rest ih =>
    intro st
    by_cases hb : isBlank item
    · rw [redactLoop, if_pos hb]
      exact ih st
    · rw [redactLoop, if_neg hb]
      rw [ih]

/-- Processing a single non-blank span replaces its occurrences in the
body with the styled token split. -/
lemma redactLoop_single (total : Nat) (s : String) (st : LoopState)
    (hs : isBlank s = false) :
    (redactLoop total [s] st).doc.body =
      String.mk (renderFrags (splitRedact s.data st.doc.body.data)) := by
  rw [redactLoop, if_neg (by simp [hs])]
  rfl

/-- The run on a nonempty body and a nonempty span list is the preparation
followed by the loop and the completion messages. -/
lemma formatAndRedact_ok_run (supported : Bool) (pii : List String) (d : Doc)
    (hb : isBlank d.body = false) (hpii : pii ≠ []) :
    formatAndRedactDocument supported (FetchResult.ok (some pii)) d =
      { doc := (redactLoop pii.length pii
          { doc := (addConfidentialHeader (enableTrackChanges supported d).1).1,
            msgs := ["Setting up document tracking...", "Reading document content...",
                     "AI is identifying sensitive data..."],
            ops := (enableTrackChanges supported d).2 ++
              (addConfidentialHeader (enableTrackChanges supported d).1).2,
            count := 0 }).doc,
        msgs := (redactLoop pii.length pii
          { doc := (addConfidentialHeader (enableTrackChanges supported d).1).1,
            msgs := ["Setting up document tracking...", "Reading document content...",
                     "AI is identifying sensitive data..."],
            ops := (enableTrackChanges supported d).2 ++
              (addConfidentialHeader (enableTrackChanges supported d).1).2,
            count := 0 }).msgs ++
          ["Mission accomplished! " ++ toString pii.length ++ " items secured.",
           "Done!"],
        ops := (redactLoop pii.length pii
          { doc := (addConfidentialHeader (enableTrackChanges supported d).1).1,
            msgs := ["Setting up document tracking...", "Reading document content...",
                     "AI is identifying sensitive data..."],
            ops := (enableTrackChanges supported d).2 ++
              (addConfidentialHeader (enableTrackChanges supported d).1).2,
            count := 0 }).ops,
        err := none } := by
  have hbody : (addConfidentialHeader
      (enableTrackChanges supported d).1).1.body = d.body := by
    rw [addConfidentialHeader_body, enableTrackChanges_body]
  simp only [formatAndRedactDocument, hbody, hb]
  simp [hpii]

/-- The per-span progress message starts with the processing prefix. -/
lemma isProcessingMsg_protect (a b : String) :
    isProcessingMsg ("Protecting data (" ++ a ++ "/" ++ b ++ ")...") = true := by
  unfold isProcessingMsg
  have hd : ("Protecting data (" ++ a ++ "/" ++ b ++ ")...").data =
      "Protecting data (".data ++
        (a.data ++ ("/".data ++ (b.data ++ ")...".data))) := by
    simp [String.data_append, List.append_assoc]
  rw [hd]
  exact List.isPrefixOf_iff_prefix.mpr (List.prefix_append _ _)

/-- The completion message is not a processing message. -/
lemma isProcessingMsg_mission (x : String) :
    isProcessingMsg ("Mission accomplished! " ++ x ++ " items secured.") = false := by
  unfold isProcessingMsg
  have hd : ("Mission accomplished! " ++ x ++ " items secured.").data =
      'M' :: ("ission accomplished! ".data ++
        (x.data ++ " items secured.".data)) := by
    have h1 : "Mission accomplished! ".data =
        'M' :: "ission accomplished! ".data := by decide
    simp [String.data_append, List.append_assoc, h1]
  have h2 : "Protecting data (".data = 'P' :: "rotecting data (".data := by decide
  rw [hd, h2]
  simp [List.isPrefixOf]

/-- The final "Done!" is not a processing message. -/
lemma isProcessingMsg_done : isProcessingMsg "Done!" = false := by decide

/-- The loop reports exactly one processing message per non-blank span. -/
lemma redactLoop_msgs_countP (total : Nat) :
    ∀ (items : List String) (st : LoopState),
      (redactLoop total items st).msgs.countP isProcessingMsg =
        st.msgs.countP isProcessingMsg + items.countP (fun i => !isBlank i) := by
  intro items
  induction items with
  | nil => intro st; simp [redactLoop]
  | cons item rest ih =>
    intro st
    by_cases hb : isBlank item
    · rw [redactLoop, if_pos hb, ih]
      simp [List.countP_cons, hb]
    · have hb' : isBlank item = false := by simpa using hb
      rw [redactLoop, if_neg hb, ih]
      simp only [List.countP_cons, List.countP_append, List.countP_nil,
        isProcessingMsg_protect, hb']
      simp
      omega

/-- C1, counterexample: the claim quantifies over every span in the result
list, but a blank span is skipped: with result list [" "] and body "a b",
the span " " occurs once yet nothing is replaced, so not every occurrence
of every listed span is redacted. -/
theorem claim_C1_counterexample :
    ciCount " ".data "a b".data = 1 ∧
    (formatAndRedactDocument true (FetchResult.ok (some [" "]))
        (Doc.mk TrackMode.off [Sec.mk []] "a b")).doc.body = "a b" ∧
    jsIncludes "[REDACTED]".data "a b".data = false :=
  ⟨by decide, rfl, by decide⟩

/-- C1, amended: for every non-blank span, the body search/replace turns
each of the k case-insensitive occurrences into the styled redaction
token (text "[REDACTED]", black highlight #000000, white font #FFFFFF)
and touches nothing else; the sections, hence the confidentiality header,
are never searched or replaced. -/
theorem claim_C1_redact_occurrences (s bodyText : String) (supported : Bool)
    (resp : FetchResult) (d : Doc) (hs : isBlank s = false)
    (hb : isBlank d.body = false) :
    ((splitRedact s.data bodyText.data).count redactToken =
        ciCount s.data bodyText.data ∧
      ∀ f ∈ splitRedact s.data bodyText.data,
        (∃ c, f = Frag.plain c) ∨
          f = Frag.tok "[REDACTED]" "#000000" "#FFFFFF" false) ∧
    (formatAndRedactDocument supported resp d).doc.sections =
      (addConfidentialHeader (enableTrackChanges supported d).1).1.sections ∧
    (formatAndRedactDocument supported (FetchResult.ok (some [s])) d).doc.body =
      String.mk (renderFrags (splitRedact s.data d.body.data)) := by
  refine ⟨⟨splitRedactAux_count _ _ _, fun f hf => splitRedactAux_shape _ _ _ f hf⟩,
    ?_, ?_⟩
  · simp only [formatAndRedactDocument]
    split
    · rfl
    · split
      · rfl
      · split
        · rfl
        · exact redactLoop_sections _ _ _
  · rw [formatAndRedact_ok_run supported [s] d hb (by simp)]
    have hbody : (addConfidentialHeader
        (enableTrackChanges supported d).1).1.body = d.body := by
      rw [addConfidentialHeader_body, enableTrackChanges_body]
    rw [show ([s] : List String).length = 1 from rfl]
    rw [redactLoop_single 1 s _ hs]
    show String.mk (renderFrags (splitRedact s.data
        (addConfidentialHeader (enableTrackChanges supported d).1).1.body.data)) =
      String.mk (renderFrags (splitRedact s.data d.body.data))
    rw [hbody]

/-- C1, witness: the spec's email span on the spec's body: one occurrence,
one token, and the run's final body is the rendered split of the body at
that span. -/
theorem claim_C1_witness :
    isBlank "john@example.com" = false ∧
    (splitRedact "john@example.com".data
        "Contact John at john@example.com or 555-123-4567.".data).count redactToken =
      ciCount "john@example.com".data
        "Contact John at john@example.com or 555-123-4567.".data ∧
    (formatAndRedactDocument true (FetchResult.ok (some ["john@example.com"]))
        (Doc.mk TrackMode.off [Sec.mk []]
          "Contact John at john@example.com or 555-123-4567.")).doc.body =
      String.mk (renderFrags (splitRedact "john@example.com".data
        "Contact John at john@example.com or 555-123-4567.".data)) := by
  have hth := claim_C1_redact_occurrences "john@example.com"
    "Contact John at john@example.com or 555-123-4567." true (FetchResult.ok none)
    (Doc.mk TrackMode.off [Sec.mk []]
      "Contact John at john@example.com or 555-123-4567.")
    (by decide) (by decide)
  exact ⟨by decide, hth.1.1, hth.2.2⟩

/-- C5: the progress callback fires exactly once per non-blank span, with
a running counter (not once per occurrence); in the spec's two-span
scenario the messages are the two distinct processing messages followed
by the completion messages. -/
theorem claim_C5_progress_messages :
    (∀ (supported : Bool) (d : Doc) (pii : List String),
      isBlank d.body = false → pii ≠ [] →
      (formatAndRedactDocument supported (FetchResult.ok (some pii)) d).msgs.countP
          isProcessingMsg = pii.countP (fun i => !isBlank i)) ∧
    (formatAndRedactDocument true
        (FetchResult.ok (some ["john@example.com", "555-123-4567"]))
        (Doc.mk TrackMode.off [Sec.mk []]
          "Contact John at john@example.com or 555-123-4567.")).msgs =
      ["Setting up document tracking...", "Reading document content...",
       "AI is identifying sensitive data...", "Protecting data (1/2)...",
       "Protecting data (2/2)...", "Mission accomplished! 2 items secured.",
       "Done!"] := by
  constructor
  · intro supported d pii hb hpii
    rw [formatAndRedact_ok_run supported pii d hb hpii]
    show ((redactLoop pii.length pii _).msgs ++
        ["Mission accomplished! " ++ toString pii.length ++ " items secured.",
         "Done!"]).countP isProcessingMsg = _
    rw [List.countP_append, redactLoop_msgs_countP]
    have h0 : (["Setting up document tracking...", "Reading document content...",
        "AI is identifying sensitive data..."] : List String).countP
          isProcessingMsg = 0 := by decide
    have h1 : (["Mission accomplished! " ++ toString pii.length ++ " items secured.",
        "Done!"] : List String).countP isProcessingMsg = 0 := by
      simp [List.countP_cons, isProcessingMsg_mission, isProcessingMsg_done]
    rw [h0, h1]
    omega
  · rfl

/-- C5, witness: in the two-span scenario the processing-message count
equals the number of non-blank spans, namely two. -/
theorem claim_C5_witness :
    (formatAndRedactDocument true
        (FetchResult.ok (some ["john@example.com", "555-123-4567"]))
        (Doc.mk TrackMode.off [Sec.mk []]
          "Contact John at john@example.com or 555-123-4567.")).msgs.countP
      isProcessingMsg =
      (["john@example.com", "555-123-4567"] : List String).countP
        (fun i => !isBlank i) :=
  claim_C5_progress_messages.1 true
    (Doc.mk TrackMode.off [Sec.mk []]
      "Contact John at john@example.com or 555-123-4567.")
    ["john@example.com", "555-123-4567"] (by decide) (by decide)

/-- C3, counterexample: the upstream reply "\x7b\x7d" parses as JSON (an
empty object, not an array), yet the handler returns a 200 success with
an empty pii array, not the claimed 500 error. -/
theorem claim_C3_counterexample :
    jsonParse (cleanedOf "{}") = some (Json.obj []) ∧
    postRedact true "{}" = ApiResponse.ok [] :=
  ⟨rfl, rfl⟩

/-- C3, amended: a reply whose cleaned extraction fails to parse as JSON
yields HTTP 500 with the error message and the raw payload; a reply that
parses as JSON but is not an array is coerced to the empty array and
returned as a 200 success; an array is returned as-is. -/
theorem claim_C3_malformed_reply (rawText : String) :
    (jsonParse (cleanedOf rawText) = none →
      postRedact true rawText =
        ApiResponse.err 500 "Failed to parse AI response. Expected a list."
          (some rawText)) ∧
    (∀ v, jsonParse (cleanedOf rawText) = some v → (∀ xs, v ≠ Json.arr xs) →
      postRedact true rawText = ApiResponse.ok []) ∧
    (∀ xs, jsonParse (cleanedOf rawText) = some (Json.arr xs) →
      postRedact true rawText = ApiResponse.ok xs) := by
  refine ⟨?_, ?_, ?_⟩
  · intro hj
    simp [postRedact, hj]
  · intro v hj hne
    cases v with
    | arr xs => exact absurd rfl (hne xs)
    | null => simp [postRedact, hj]
    | bool b => simp [postRedact, hj]
    | num lit => simp [postRedact, hj]
    | str s => simp [postRedact, hj]
    | obj fields => simp [postRedact, hj]
  · intro xs hj
    simp [postRedact, hj]

/-- C3, witness: an unparseable reply gets the 500 with the raw payload;
the reply "null" parses as non-array JSON and gets a 200 with an empty
array. -/
theorem claim_C3_witness :
    jsonParse (cleanedOf "not json") = none ∧
    postRedact true "not json" =
      ApiResponse.err 500 "Failed to parse AI response. Expected a list."
        (some "not json") ∧
    jsonParse (cleanedOf "null") = some Json.null ∧
    postRedact true "null" = ApiResponse.ok [] :=
  ⟨rfl, (claim_C3_malformed_reply "not json").1 rfl, rfl,
   (claim_C3_malformed_reply "null").2.1 Json.null rfl
     (fun _ h => Json.noConfusion h)⟩

end Redactor

